import Mathlib

/-!
Verification development for the serverless-plugin-share repository
(src/index.js). The JavaScript plugin is shallowly embedded below:

* JSON objects are modelled as association lists of string keys, looked up
  and updated first-match-first (a JavaScript object holds one entry per
  key, so first-match semantics coincide with its semantics).
* `undefined` is modelled by `Option.none`; a thrown exception is modelled
  by a `JsError` value carried next to the (in-place mutated) state, since
  JavaScript mutates the shared document before an exception propagates.
* Each stage of the plugin (init, elaborateTemplate, code, end,
  getLatestVersion) is modelled as a pure function of the data the stage
  reads, with the object-storage collaborator's responses passed as inputs.
-/

namespace Share

/-- A JavaScript runtime exception. -/
inductive JsError where
  | typeError (msg : String)
  | error (msg : String)
deriving Repr, DecidableEq

/-! ### Association-list model of JavaScript objects -/

/-- Property read `o[k]`: the first entry with key `k`, if any. -/
def lookupKey {α : Type} (k : String) : List (String × α) → Option α
  | [] => none
  | (k', v) :: rest => if k' = k then some v else lookupKey k rest

/-- In-place mutation of the object stored at key `k` (the object a prior
lookup returned), i.e. the first entry with key `k`. -/
def updateFirst {α : Type} (k : String) (f : α → α) : List (String × α) → List (String × α)
  | [] => []
  | (k', v) :: rest => if k' = k then (k', f v) :: rest else (k', v) :: updateFirst k f rest

/-- JavaScript `delete o[k]`: the entry with key `k` is removed, the
enumeration order of the remaining keys is preserved. -/
def deleteKey {α : Type} (k : String) : List (String × α) → List (String × α)
  | [] => []
  | (k', v) :: rest => if k' = k then deleteKey k rest else (k', v) :: deleteKey k rest

/-! ### init (src/index.js:73-96)

`init` builds `shareConfig` by spreading `serverless.service.custom.share`
over defaults, then computes the four destination fields with `||`. -/

/-- JavaScript `a || b` on possibly-undefined strings: `undefined` and the
empty string are falsy. -/
def jsOrStr (a b : Option String) : Option String :=
  match a with
  | some s => if s = "" then b else some s
  | none => b

/-- Field read on the `shareConfig` object
`{ bucket: undefined, codeKey: sourceKey, templateKey: "template.json",
   stackName: service, parameters: {}, ...custom }` (src/index.js:84-91).
`custom` is `serverless.service.custom.share`, whose string-valued fields
are modelled here; a field absent from both `custom` and the defaults reads
as `undefined`. -/
def shareConfigLookup (custom : List (String × String)) (sourceKey service : String)
    (k : String) : Option String :=
  match lookupKey k custom with
  | some v => some v
  | none =>
    if k = "codeKey" then some sourceKey
    else if k = "templateKey" then some "template.json"
    else if k = "stackName" then some service
    else none

/-- The four destination fields `init` assigns onto `this`
(src/index.js:92-95). -/
structure InitDest where
  destBucket : Option String
  destCodeKey : Option String
  destTemplateKey : Option String
  stackName : Option String
deriving Repr, DecidableEq

/-- src/index.js:92-95. `options` is the parsed CLI flag object; the
declared flags are `bucket`, `codeKey`, `templateKey` and `stack`
(src/index.js:22-51). The source reads `this.options.key`,
`this.shareConfig.key` and `this.options.stackName`, none of which is a
declared flag or a configured field, so those reads are modelled by the
corresponding (usually failing) lookups. -/
def initDest (options custom : List (String × String)) (sourceKey service : String) : InitDest :=
  { destBucket := jsOrStr (lookupKey "bucket" options) (shareConfigLookup custom sourceKey service "bucket")
    destCodeKey := jsOrStr (lookupKey "key" options) (shareConfigLookup custom sourceKey service "key")
    destTemplateKey := jsOrStr (lookupKey "key" options) (shareConfigLookup custom sourceKey service "key")
    stackName := jsOrStr (lookupKey "stackName" options) (shareConfigLookup custom sourceKey service "stackName") }

/-- Bucket/Key pair of an S3 put request. -/
structure PutRequest where
  Bucket : Option String
  Key : Option String
deriving Repr, DecidableEq

/-- The put request issued by `saveTemplate` (src/index.js:219-227):
`Bucket: this.destBucket, Key: this.destTemplateKey`. -/
def saveTemplateRequest (d : InitDest) : PutRequest :=
  { Bucket := d.destBucket, Key := d.destTemplateKey }

/-- The upload request issued by `uploadCode` (src/index.js:248-256):
`Bucket: this.destBucket, Key: this.destCodeKey`. -/
def uploadCodeRequest (d : InitDest) : PutRequest :=
  { Bucket := d.destBucket, Key := d.destCodeKey }

/-! ### getLatestVersion (src/index.js:146-158) -/

/-- One element of the `CommonPrefixes` array of an S3 `listObjectsV2`
response: a plain object with one field, called `Prefix` in the source
(renamed here to `prefixValue`). -/
structure CommonPrefixEntry where
  prefixValue : String
deriving Repr, DecidableEq

/-- JavaScript default string conversion of a plain object, used by
`Array.prototype.sort` when no comparator is given. -/
def objString (_ : CommonPrefixEntry) : String := "[object Object]"

/-- Lexicographic comparison of character lists by code point, the order
JavaScript string comparison uses (the strings involved here are ASCII, on
which code-unit and code-point order coincide). -/
def charLtChars : List Char → List Char → Bool
  | [], [] => false
  | [], _ :: _ => true
  | _ :: _, [] => false
  | c :: cs, d :: ds =>
    if c.toNat < d.toNat then true
    else if d.toNat < c.toNat then false
    else charLtChars cs ds

/-- Lexicographic strict order on strings. -/
def strLt (a b : String) : Bool := charLtChars a.data b.data

/-- Stable insertion of `a` into `l`: `a` goes before the first element
whose sort key is not strictly smaller. -/
def jsSortInsert (a : CommonPrefixEntry) : List CommonPrefixEntry → List CommonPrefixEntry
  | [] => [a]
  | b :: bs => if strLt (objString b) (objString a) then b :: jsSortInsert a bs else a :: b :: bs

/-- `CommonPrefixes.sort()` with no comparator (src/index.js:153): elements
are compared by their string conversions. Every element is a plain object
converting to "[object Object]", so all sort keys are equal and the
(ES2019-stable) sort leaves the array in its original order; this stable
insertion sort computes the same result. -/
def jsDefaultSort : List CommonPrefixEntry → List CommonPrefixEntry
  | [] => []
  | a :: as => jsSortInsert a (jsDefaultSort as)

/-- src/index.js:146-158 as a function of the listing response:
`response.CommonPrefixes.sort().reverse()[0]`, then the
`=== undefined` guard throwing `Error("Version not found")`, then
`.Prefix`. -/
def getLatestVersion (commonPrefixes : List CommonPrefixEntry) : Except JsError String :=
  match ((jsDefaultSort commonPrefixes).reverse).head? with
  | none => Except.error (JsError.error "Version not found")
  | some latest => Except.ok latest.prefixValue

/-! ### The template document and elaborateTemplate (src/index.js:180-212) -/

/-- An entry of the template's `Parameters` mapping: its optional `Default`
field plus the remaining attributes, which the elaborator never touches. -/
structure Parameter where
  Default : Option String
  extra : List (String × String)
deriving Repr, DecidableEq

/-- The value stored in a resource's `S3Bucket` field: either an object
`{ Ref: name }` or a plain string. -/
inductive BucketRef where
  | ref (name : String)
  | str (s : String)
deriving Repr, DecidableEq

/-- Property read `.Ref`: defined on the `{ Ref: name }` object, undefined
on a string. -/
def BucketRef.Ref : BucketRef → Option String
  | .ref n => some n
  | .str _ => none

/-- The fields of a resource's `Properties` object that
`elaborateTemplate` reads or writes (src/index.js:200-208), plus opaque
remaining attributes. The `Code` block's contents are opaque because the
source only tests the block for truthiness. -/
structure ResourceProperties where
  Code : Option (List (String × String))
  S3Bucket : Option BucketRef
  S3Key : Option String
  extra : List (String × String)
deriving Repr, DecidableEq

/-- An entry of the template's `Resources` mapping. The source field named
`Type` is rendered `Type'`. -/
structure Resource where
  Type' : String
  Properties : Option ResourceProperties
deriving Repr, DecidableEq

/-- A parsed CloudFormation template document: a `Resources` mapping
(guaranteed present by the caller) and an optional `Parameters` mapping. -/
structure Template where
  Resources : List (String × Resource)
  Parameters : Option (List (String × Parameter))
deriving Repr, DecidableEq

/-- One parameter rule (src/index.js:189-194): `"required"` deletes the
parameter's `Default`, `"optional"` sets it to the empty string, any other
rule string changes nothing. -/
def applyRule (rule : String) (p : Parameter) : Parameter :=
  if rule = "required" then { p with Default := none }
  else if rule = "optional" then { p with Default := some "" }
  else p

/-- The warning logged for a rule naming a missing parameter
(src/index.js:186). -/
def warnMsg (key : String) : String :=
  "Rule " ++ key ++ " cannot be applied, parameters not found"

/-- The rule loop of src/index.js:183-195 over a present `Parameters`
mapping: returns the mapping after all in-place rule applications together
with the warnings logged, in order. -/
def applyParamRules : List (String × String) → List (String × Parameter) →
    List (String × Parameter) × List String
  | [], ps => (ps, [])
  | (key, rule) :: rest, ps =>
    match lookupKey key ps with
    | none =>
      let r := applyParamRules rest ps
      (r.1, warnMsg key :: r.2)
    | some _ =>
      applyParamRules rest (updateFirst key (applyRule rule) ps)

/-- Outcome of a call to `elaborateTemplate`: the document state after the
call (JavaScript mutates the caller's document in place, so the state is
observable even when the call throws), the warnings logged, and the thrown
exception if any. -/
structure ElabResult where
  doc : Template
  logs : List String
  err : Option JsError
deriving Repr, DecidableEq

/-- src/index.js:180-212 under JavaScript semantics, step by step:

1. line 181 deletes `Resources.ServerlessDeploymentBucket`;
2. lines 183-195 iterate the configured rules; when `Parameters` is absent
   and at least one rule exists, the first read
   `templateData.Parameters[key]` throws a TypeError;
3. line 197 evaluates `templateData.Resources.filter(...)`: `Resources` is
   a plain object (a mapping, produced by `JSON.parse`), which has no
   `filter` method, so this throws a TypeError on every call that reaches
   it. The rewrite of lines 199-209 is therefore unreachable, and
   `destBucket` / `destCodeKey` are never consumed. -/
def elaborateTemplate (rules : List (String × String)) (destBucket destCodeKey : Option String)
    (t : Template) : ElabResult :=
  match t.Parameters with
  | none =>
    if rules.isEmpty then
      { doc := { Resources := deleteKey "ServerlessDeploymentBucket" t.Resources
                 Parameters := none }
        logs := []
        err := some (JsError.typeError "templateData.Resources.filter is not a function") }
    else
      { doc := { Resources := deleteKey "ServerlessDeploymentBucket" t.Resources
                 Parameters := none }
        logs := []
        err := some (JsError.typeError "Cannot read properties of undefined") }
  | some ps =>
    { doc := { Resources := deleteKey "ServerlessDeploymentBucket" t.Resources
               Parameters := some (applyParamRules rules ps).1 }
      logs := (applyParamRules rules ps).2
      err := some (JsError.typeError "templateData.Resources.filter is not a function") }

/-! ### The code stage (src/index.js:119-124) -/

/-- Whether the temporary file `/tmp/code.zip` is on disk after the code
stage finished or threw, next to the propagated error if any. -/
structure CodeStageResult where
  tmpFileExists : Bool
  err : Option JsError
deriving Repr, DecidableEq

/-- src/index.js:119-124 as a function of the outcomes of the two awaited
S3 calls. `downloadCode` writes the file only after its `getObject`
resolves (src/index.js:234-241); `fs.unlinkSync` runs only after
`uploadCode` resolves — there is no `try`/`finally`, so a rejected upload
propagates with the file still on disk. -/
def codeStage (downloadResolves uploadResolves : Bool) : CodeStageResult :=
  if downloadResolves = false then
    { tmpFileExists := false, err := some (JsError.error "getObject rejected") }
  else if uploadResolves = false then
    { tmpFileExists := true, err := some (JsError.error "upload rejected") }
  else
    { tmpFileExists := false, err := none }

/-! ### The end stage (src/index.js:132-139) -/

/-- Template-literal interpolation of a possibly-undefined string value. -/
def jsInterp : Option String → String
  | some s => s
  | none => "undefined"

/-- The string concatenation of src/index.js:134-137, exactly as written:
no separator stands between the `stackName=` fragment and the
`templateURL=` fragment. -/
def shareLinkString (stackName : Option String) (bucketRegion : String)
    (destBucket : Option String) (templateKeyField : Option String) : String :=
  "https://console.aws.amazon.com/cloudformation/home#/stacks/new?" ++
    ("stackName=" ++ jsInterp stackName) ++
    ("templateURL=https://" ++ bucketRegion) ++
    (".amazonaws.com/" ++ jsInterp destBucket ++ "/" ++ jsInterp templateKeyField)

/-- The share link printed by `end` given the state `init` built and the
region answered by `getBucketLocation`. The interpolated field is
`this.templateKey` (src/index.js:137), which no method of the class ever
assigns (`init` assigns `destTemplateKey`), so it reads as `undefined`. -/
def endShareLink (d : InitDest) (bucketRegion : String) : String :=
  shareLinkString d.stackName bucketRegion d.destBucket none

/-- The share-URL shape stated by the specification, with the `&`
separator between the two query parameters and the configured destination
template key; written from the specification's words for comparison with
`endShareLink`. -/
def shareLinkSpec (stack region bucket templateKey : String) : String :=
  "https://console.aws.amazon.com/cloudformation/home#/stacks/new?stackName=" ++ stack ++
    "&templateURL=https://" ++ region ++ ".amazonaws.com/" ++ bucket ++ "/" ++ templateKey

/-! ### Association-list lemmas -/

theorem lookupKey_deleteKey_self {α : Type} (k : String) (l : List (String × α)) :
    lookupKey k (deleteKey k l) = none := by
  induction l with
  | nil => rfl
  | cons hd tl ih =>
    obtain ⟨k', v⟩ := hd
    by_cases hk : k' = k <;> simp [deleteKey, lookupKey, hk, ih]

theorem lookupKey_deleteKey_ne {α : Type} (k k' : String) (h : k' ≠ k) (l : List (String × α)) :
    lookupKey k' (deleteKey k l) = lookupKey k' l := by
  induction l with
  | nil => rfl
  | cons hd tl ih =>
    obtain ⟨k'', v⟩ := hd
    by_cases hk : k'' = k
    · subst hk
      have : k'' ≠ k' := fun he => h he.symm
      simp [deleteKey, lookupKey, this, ih]
    · by_cases hk2 : k'' = k' <;> simp [deleteKey, lookupKey, hk, hk2, h, ih]

theorem deleteKey_eq_self {α : Type} (k : String) (l : List (String × α))
    (h : lookupKey k l = none) : deleteKey k l = l := by
  induction l with
  | nil => rfl
  | cons hd tl ih =>
    obtain ⟨k', v⟩ := hd
    by_cases hk : k' = k
    · simp [lookupKey, hk] at h
    · simp [lookupKey, hk] at h
      simp [deleteKey, hk, ih h]

theorem lookupKey_updateFirst_self {α : Type} (k : String) (f : α → α) (l : List (String × α))
    (p : α) (h : lookupKey k l = some p) :
    lookupKey k (updateFirst k f l) = some (f p) := by
  induction l with
  | nil => simp [lookupKey] at h
  | cons hd tl ih =>
    obtain ⟨k', v⟩ := hd
    by_cases hk : k' = k
    · simp [lookupKey, hk] at h
      simp [updateFirst, lookupKey, hk, h]
    · simp [lookupKey, hk] at h
      simp [updateFirst, lookupKey, hk, ih h]

theorem updateFirst_of_lookup_none {α : Type} (k : String) (f : α → α) (l : List (String × α))
    (h : lookupKey k l = none) : updateFirst k f l = l := by
  induction l with
  | nil => rfl
  | cons hd tl ih =>
    obtain ⟨k', v⟩ := hd
    by_cases hk : k' = k
    · simp [lookupKey, hk] at h
    · simp [lookupKey, hk] at h
      simp [updateFirst, hk, ih h]

theorem lookupKey_updateFirst_ne {α : Type} (k k' : String) (f : α → α) (l : List (String × α))
    (h : k' ≠ k) : lookupKey k' (updateFirst k f l) = lookupKey k' l := by
  induction l with
  | nil => rfl
  | cons hd tl ih =>
    obtain ⟨k'', v⟩ := hd
    by_cases hk : k'' = k
    · subst hk
      have : k'' ≠ k' := fun he => h he.symm
      simp [updateFirst, lookupKey, this, ih]
    · by_cases hk2 : k'' = k' <;> simp [updateFirst, lookupKey, hk, hk2, h, ih]

theorem updateFirst_eq_self {α : Type} (k : String) (f : α → α) (l : List (String × α))
    (p : α) (h : lookupKey k l = some p) (hf : f p = p) : updateFirst k f l = l := by
  induction l with
  | nil => rfl
  | cons hd tl ih =>
    obtain ⟨k', v⟩ := hd
    by_cases hk : k' = k
    · simp [lookupKey, hk] at h
      subst h
      simp [updateFirst, hk, hf]
    · simp [lookupKey, hk] at h
      simp [updateFirst, hk, ih h]

/-! ### Lemmas about the rule loop -/

theorem applyParamRules_lookup_not_mem (rules : List (String × String)) (key : String)
    (h : key ∉ rules.map Prod.fst) :
    ∀ ps : List (String × Parameter),
      lookupKey key (applyParamRules rules ps).1 = lookupKey key ps := by
  induction rules with
  | nil => intro ps; rfl
  | cons kr rest ih =>
    intro ps
    obtain ⟨k, r⟩ := kr
    simp only [List.map_cons, List.mem_cons] at h
    push_neg at h
    obtain ⟨hk, hrest⟩ := h
    cases hl : lookupKey k ps with
    | none => simpa [applyParamRules, hl] using ih hrest ps
    | some q =>
      have := ih hrest (updateFirst k (applyRule r) ps)
      simp only [applyParamRules, hl]
      rw [this, lookupKey_updateFirst_ne k key _ _ hk]

theorem applyParamRules_lookup_none (rules : List (String × String)) (key : String) :
    ∀ ps : List (String × Parameter), lookupKey key ps = none →
      lookupKey key (applyParamRules rules ps).1 = none := by
  induction rules with
  | nil => intro ps h; exact h
  | cons kr rest ih =>
    intro ps h
    obtain ⟨k, r⟩ := kr
    cases hl : lookupKey k ps with
    | none => simpa [applyParamRules, hl] using ih ps h
    | some q =>
      have hk : k ≠ key := fun he => by rw [he, h] at hl; exact Option.noConfusion hl
      simp only [applyParamRules, hl]
      exact ih _ (by rw [lookupKey_updateFirst_ne k key _ _ (Ne.symm hk)]; exact h)

theorem applyParamRules_lookup_mem (rules : List (String × String)) (key rule : String)
    (hmem : (key, rule) ∈ rules) (hnd : (rules.map Prod.fst).Nodup) :
    ∀ (ps : List (String × Parameter)) (p : Parameter), lookupKey key ps = some p →
      lookupKey key (applyParamRules rules ps).1 = some (applyRule rule p) := by
  induction rules with
  | nil => simp at hmem
  | cons kr rest ih =>
    intro ps p hp
    obtain ⟨k, r⟩ := kr
    simp only [List.map_cons, List.nodup_cons] at hnd
    obtain ⟨hknotin, hndrest⟩ := hnd
    rcases List.mem_cons.mp hmem with heq | hrest
    · simp only [Prod.mk.injEq] at heq
      obtain ⟨hk, hr⟩ := heq
      subst hk; subst hr
      simp only [applyParamRules, hp]
      rw [applyParamRules_lookup_not_mem rest key hknotin]
      exact lookupKey_updateFirst_self key _ ps p hp
    · have hk : k ≠ key := by
        intro he
        exact hknotin (he ▸ List.mem_map_of_mem Prod.fst hrest)
      cases hl : lookupKey k ps with
      | none => simpa [applyParamRules, hl] using ih hrest hndrest ps p hp
      | some q =>
        simp only [applyParamRules, hl]
        exact ih hrest hndrest _ p
          (by rw [lookupKey_updateFirst_ne k key _ _ (Ne.symm hk)]; exact hp)

theorem applyParamRules_warn_mem (rules : List (String × String)) (key rule : String)
    (hmem : (key, rule) ∈ rules) :
    ∀ ps : List (String × Parameter), lookupKey key ps = none →
      warnMsg key ∈ (applyParamRules rules ps).2 := by
  induction rules with
  | nil => simp at hmem
  | cons kr rest ih =>
    intro ps hp
    obtain ⟨k, r⟩ := kr
    rcases List.mem_cons.mp hmem with heq | hrest
    · simp only [Prod.mk.injEq] at heq
      obtain ⟨hk, hr⟩ := heq
      subst hk
      simp [applyParamRules, hp]
    · cases hl : lookupKey k ps with
      | none =>
        simp only [applyParamRules, hl]
        exact List.mem_cons_of_mem _ (ih hrest ps hp)
      | some q =>
        have hk : k ≠ key := fun he => by rw [he, hp] at hl; exact Option.noConfusion hl
        simp only [applyParamRules, hl]
        exact ih hrest _ (by rw [lookupKey_updateFirst_ne k key _ _ (Ne.symm hk)]; exact hp)

theorem applyParamRules_fst_eq_self (rules : List (String × String))
    (ps : List (String × Parameter))
    (h : ∀ key rule p, (key, rule) ∈ rules → lookupKey key ps = some p → applyRule rule p = p) :
    (applyParamRules rules ps).1 = ps := by
  induction rules with
  | nil => rfl
  | cons kr rest ih =>
    obtain ⟨k, r⟩ := kr
    cases hl : lookupKey k ps with
    | none =>
      simp only [applyParamRules, hl]
      exact ih (fun key rule p hm hp => h key rule p (List.mem_cons_of_mem _ hm) hp)
    | some q =>
      have hq : applyRule r q = q := h k r q (List.mem_cons_self _ _) hl
      simp only [applyParamRules, hl, updateFirst_eq_self k _ ps q hl hq]
      exact ih (fun key rule p hm hp => h key rule p (List.mem_cons_of_mem _ hm) hp)

/-! ### Unfolding lemmas for elaborateTemplate -/

theorem elaborateTemplate_some (rules : List (String × String)) (db dk : Option String)
    (res : List (String × Resource)) (ps : List (String × Parameter)) :
    elaborateTemplate rules db dk { Resources := res, Parameters := some ps } =
      { doc := { Resources := deleteKey "ServerlessDeploymentBucket" res
                 Parameters := some (applyParamRules rules ps).1 }
        logs := (applyParamRules rules ps).2
        err := some (JsError.typeError "templateData.Resources.filter is not a function") } := rfl

theorem elaborateTemplate_none_doc (rules : List (String × String)) (db dk : Option String)
    (res : List (String × Resource)) :
    (elaborateTemplate rules db dk { Resources := res, Parameters := none }).doc =
      { Resources := deleteKey "ServerlessDeploymentBucket" res, Parameters := none } := by
  cases rules <;> rfl

theorem elaborateTemplate_doc_resources (rules : List (String × String)) (db dk : Option String)
    (t : Template) :
    (elaborateTemplate rules db dk t).doc.Resources =
      deleteKey "ServerlessDeploymentBucket" t.Resources := by
  obtain ⟨res, params⟩ := t
  cases params with
  | none => rw [elaborateTemplate_none_doc]
  | some ps => rw [elaborateTemplate_some]

/-! ### Lemmas about the default sort and the last listing entry -/

theorem jsSortInsert_eq_cons (a : CommonPrefixEntry) (l : List CommonPrefixEntry) :
    jsSortInsert a l = a :: l := by
  cases l with
  | nil => rfl
  | cons b bs =>
    have h : strLt "[object Object]" "[object Object]" = false := by decide
    simp [jsSortInsert, objString, h]

theorem jsDefaultSort_eq_self (l : List CommonPrefixEntry) : jsDefaultSort l = l := by
  induction l with
  | nil => rfl
  | cons a as ih => rw [jsDefaultSort, ih, jsSortInsert_eq_cons]

theorem getLatestVersion_eq_getLast (xs : List CommonPrefixEntry) :
    getLatestVersion xs =
      match xs.getLast? with
      | none => Except.error (JsError.error "Version not found")
      | some latest => Except.ok latest.prefixValue := by
  rw [getLatestVersion, jsDefaultSort_eq_self, List.head?_reverse]

theorem mem_of_getLast?_eq {α : Type} (l : List α) (a : α) (h : l.getLast? = some a) :
    a ∈ l := by
  induction l with
  | nil => simp at h
  | cons b rest ih =>
    cases rest with
    | nil =>
      simp only [List.getLast?_singleton, Option.some.injEq] at h
      simp [h]
    | cons c rest' =>
      rw [List.getLast?_cons_cons] at h
      exact List.mem_cons_of_mem _ (ih h)

theorem pairwise_le_getLast (xs : List CommonPrefixEntry) (lc : CommonPrefixEntry)
    (hlast : xs.getLast? = some lc)
    (hs : xs.Pairwise (fun a b => a.prefixValue ≤ b.prefixValue)) :
    ∀ cp ∈ xs, cp.prefixValue ≤ lc.prefixValue := by
  induction xs with
  | nil => simp at hlast
  | cons a rest ih =>
    cases rest with
    | nil =>
      simp only [List.getLast?_singleton, Option.some.injEq] at hlast
      subst hlast
      intro cp hcp
      simp only [List.mem_singleton] at hcp
      subst hcp
      exact le_refl _
    | cons b rest' =>
      rw [List.getLast?_cons_cons] at hlast
      obtain ⟨ha, hrest⟩ := List.pairwise_cons.mp hs
      intro cp hcp
      rcases List.mem_cons.mp hcp with rfl | hcp'
      · exact ha lc (mem_of_getLast?_eq _ _ hlast)
      · exact ih hlast hrest cp hcp'

/-! ### Concrete documents used as inputs below -/

/-- A compute-function resource whose `S3Bucket` field still references the
deployment bucket, so it satisfies the rewrite condition of
src/index.js:200-205. -/
def exampleLambda : Resource :=
  { Type' := "AWS::Lambda::Function"
    Properties := some
      { Code := some [("S3Bucket", "ServerlessDeploymentBucket")]
        S3Bucket := some (BucketRef.ref "ServerlessDeploymentBucket")
        S3Key := some "serverless/svc/dev/1700000000/svc.zip"
        extra := [] } }

/-- The deployment-bucket resource entry. -/
def exampleDeployBucket : Resource :=
  { Type' := "AWS::S3::Bucket", Properties := none }

/-- A template holding the deployment-bucket entry and one matching
compute-function resource, with an empty `Parameters` mapping. -/
def tShared : Template :=
  { Resources := [("ServerlessDeploymentBucket", exampleDeployBucket), ("Fn", exampleLambda)]
    Parameters := some [] }

/-- Parameters mapping for the rule-application witness. -/
def psRules : List (String × Parameter) :=
  [("A", { Default := some "x", extra := [("Type", "String")] }),
   ("B", { Default := some "y", extra := [] })]

/-- Document for the rule-application witness. -/
def tRules : Template := { Resources := [], Parameters := some psRules }

/-- An already-elaborated compute-function resource: its `S3Bucket` was
rewritten to the destination bucket string. -/
def resRewritten : Resource :=
  { Type' := "AWS::Lambda::Function"
    Properties := some
      { Code := some [("S3Bucket", "ServerlessDeploymentBucket")]
        S3Bucket := some (BucketRef.str "pub")
        S3Key := some "v1/code.zip"
        extra := [] } }

/-- An already-elaborated document: no deployment-bucket entry, rules
already applied (`A` required with no `Default`, `B` optional with empty
`Default`), code location already rewritten. -/
def tElaborated : Template :=
  { Resources := [("Fn", resRewritten)]
    Parameters := some [("A", { Default := none, extra := [] }),
                        ("B", { Default := some "", extra := [] })] }

/-- CLI options of a run passing all four declared flags
(src/index.js:22-51). -/
def optionsAllFlags : List (String × String) :=
  [("bucket", "pub"), ("codeKey", "my/code.zip"),
   ("templateKey", "my-template.json"), ("stack", "my-stack")]

/-- A `custom.share` configuration carrying a stack name. -/
def customStack : List (String × String) := [("stackName", "cfg-stack")]

/-! ### Claims -/

/-- C1 counterexample: the rule names parameter `P1`, which is absent (the
document has no `Parameters` mapping at all), yet no warning is logged —
the read `templateData.Parameters[key]` throws a TypeError instead,
refuting the claim that every rule naming an absent parameter produces a
warning. -/
theorem paramRules_no_warning_when_parameters_absent :
    (elaborateTemplate [("P1", "required")] none none
        { Resources := [], Parameters := none }).logs = [] ∧
    (elaborateTemplate [("P1", "required")] none none
        { Resources := [], Parameters := none }).err =
      some (JsError.typeError "Cannot read properties of undefined") :=
  ⟨rfl, rfl⟩

/-- C1 (amended): over documents whose `Parameters` mapping is present, for
each rule in the mapping (rule keys are distinct, as JavaScript object keys
are): a `required` rule whose parameter exists leaves that parameter with
no `Default`, an `optional` rule whose parameter exists leaves its
`Default` equal to the empty string, and a rule whose parameter is absent
leaves the document unchanged for that parameter and logs a warning. When
`Parameters` is absent and the rule mapping is nonempty, the code instead
raises a TypeError and logs nothing. -/
theorem paramRules_apply (rules : List (String × String)) (db dk : Option String)
    (t : Template) (ps : List (String × Parameter)) (key rule : String)
    (hps : t.Parameters = some ps)
    (hnd : (rules.map Prod.fst).Nodup)
    (hmem : (key, rule) ∈ rules) :
    ∃ ps', (elaborateTemplate rules db dk t).doc.Parameters = some ps' ∧
      (∀ p, lookupKey key ps = some p → rule = "required" →
        lookupKey key ps' = some { p with Default := none }) ∧
      (∀ p, lookupKey key ps = some p → rule = "optional" →
        lookupKey key ps' = some { p with Default := some "" }) ∧
      (lookupKey key ps = none →
        lookupKey key ps' = none ∧ warnMsg key ∈ (elaborateTemplate rules db dk t).logs) := by
  obtain ⟨hdoc, hlogs⟩ : (elaborateTemplate rules db dk t).doc.Parameters =
      some (applyParamRules rules ps).1 ∧
      (elaborateTemplate rules db dk t).logs = (applyParamRules rules ps).2 := by
    obtain ⟨res, params⟩ := t
    cases params with
    | none => exact absurd hps (by simp)
    | some qs =>
      obtain rfl : qs = ps := by
        have : some qs = some ps := hps
        exact Option.some.inj this
      exact ⟨rfl, rfl⟩
  refine ⟨(applyParamRules rules ps).1, hdoc, ?_, ?_, ?_⟩
  · intro p hp hr
    subst hr
    rw [applyParamRules_lookup_mem rules key "required" hmem hnd ps p hp]
    unfold applyRule
    rw [if_pos rfl]
  · intro p hp hr
    subst hr
    rw [applyParamRules_lookup_mem rules key "optional" hmem hnd ps p hp]
    unfold applyRule
    rw [if_neg (by decide), if_pos rfl]
  · intro hp
    refine ⟨applyParamRules_lookup_none rules key ps hp, ?_⟩
    rw [hlogs]
    exact applyParamRules_warn_mem rules key rule hmem ps hp

/-- C1 witness: the amended theorem applied to a concrete document and rule
mapping (`A` is `required` and present). -/
theorem paramRules_apply_witness :
    ∃ ps', (elaborateTemplate [("A", "required"), ("B", "optional"), ("C", "required")]
        none none tRules).doc.Parameters = some ps' ∧
      (∀ p, lookupKey "A" psRules = some p → "required" = "required" →
        lookupKey "A" ps' = some { p with Default := none }) ∧
      (∀ p, lookupKey "A" psRules = some p → "required" = "optional" →
        lookupKey "A" ps' = some { p with Default := some "" }) ∧
      (lookupKey "A" psRules = none →
        lookupKey "A" ps' = none ∧ warnMsg "A" ∈
          (elaborateTemplate [("A", "required"), ("B", "optional"), ("C", "required")]
            none none tRules).logs) :=
  paramRules_apply [("A", "required"), ("B", "optional"), ("C", "required")] none none
    tRules psRules "A" "required" rfl (by decide) (by decide)

/-- C2: the compute-function rewrite of src/index.js:197-209 never
executes: `templateData.Resources` is a plain object with no `filter`
method, so the call throws a TypeError, and the matching resource `Fn`
(whose `S3Bucket` references the deployment bucket) is left with its
original code location instead of the configured destination values. -/
theorem lambdaRewrite_never_runs :
    (elaborateTemplate [] (some "pub") (some "v1/code.zip") tShared).err =
      some (JsError.typeError "templateData.Resources.filter is not a function") ∧
    lookupKey "Fn" (elaborateTemplate [] (some "pub") (some "v1/code.zip") tShared).doc.Resources =
      some exampleLambda :=
  ⟨rfl, rfl⟩

/-- C3: for every document whose `Resources` mapping contains the
`ServerlessDeploymentBucket` entry, elaboration removes exactly that entry
and no other. -/
theorem deploymentBucket_removed (rules : List (String × String)) (db dk : Option String)
    (t : Template) (h : lookupKey "ServerlessDeploymentBucket" t.Resources ≠ none) :
    lookupKey "ServerlessDeploymentBucket" (elaborateTemplate rules db dk t).doc.Resources = none ∧
    ∀ k, k ≠ "ServerlessDeploymentBucket" →
      lookupKey k (elaborateTemplate rules db dk t).doc.Resources = lookupKey k t.Resources := by
  rw [elaborateTemplate_doc_resources]
  exact ⟨lookupKey_deleteKey_self _ _, fun k hk => lookupKey_deleteKey_ne _ k hk _⟩

/-- C3 witness: the theorem applied to a concrete document containing the
deployment-bucket entry. -/
theorem deploymentBucket_removed_witness :
    lookupKey "ServerlessDeploymentBucket"
      (elaborateTemplate [] none none tShared).doc.Resources = none ∧
    ∀ k, k ≠ "ServerlessDeploymentBucket" →
      lookupKey k (elaborateTemplate [] none none tShared).doc.Resources =
        lookupKey k tShared.Resources :=
  deploymentBucket_removed [] none none tShared (by decide)

/-- C4: elaborateTemplate never completes without raising: on every input
(here witnessed both in general and on a concrete document with `Resources`
present and `Parameters` empty) it raises a TypeError, because line 197
calls `.filter` on the `Resources` mapping object; so the claim that the
only abnormal condition is a logged-and-skipped missing parameter fails. -/
theorem elaborateTemplate_always_raises :
    (∀ (rules : List (String × String)) (db dk : Option String) (t : Template),
      (elaborateTemplate rules db dk t).err.isSome = true) ∧
    (elaborateTemplate [] none none tShared).err =
      some (JsError.typeError "templateData.Resources.filter is not a function") := by
  constructor
  · intro rules db dk t
    obtain ⟨res, params⟩ := t
    cases params with
    | none => cases rules <;> rfl
    | some ps => rfl
  · rfl

/-- C5: the four command flags do not override their configuration
defaults as claimed: with all four flags given, the computed
`destCodeKey`/`destTemplateKey` read the undeclared `options.key` and
unconfigured `shareConfig.key` and come out `undefined`, ignoring the
`codeKey`/`templateKey` flags, and `stackName` reads the undeclared
`options.stackName`, ignoring the `stack` flag; only `bucket` works. -/
theorem init_flag_overrides_broken :
    initDest optionsAllFlags customStack "serverless/svc/dev/1700000000/svc.zip" "svc" =
      { destBucket := some "pub", destCodeKey := none, destTemplateKey := none,
        stackName := some "cfg-stack" } ∧
    (initDest optionsAllFlags customStack "serverless/svc/dev/1700000000/svc.zip"
      "svc").destCodeKey ≠ some "my/code.zip" ∧
    (initDest optionsAllFlags customStack "serverless/svc/dev/1700000000/svc.zip"
      "svc").destTemplateKey ≠ some "my-template.json" ∧
    (initDest optionsAllFlags customStack "serverless/svc/dev/1700000000/svc.zip"
      "svc").stackName ≠ some "my-stack" :=
  ⟨rfl, by decide, by decide, by decide⟩

/-- C6 counterexample: on the listing `[b/, a/]` the code returns `a/`, the
last listed prefix, although the lexicographically greatest prefix is `b/`
— the comparator-less `sort()` compares the entries' string conversions
(all `[object Object]`), not their `Prefix` fields, so it does not sort
lexicographically. -/
theorem getLatestVersion_not_lexicographic_max :
    getLatestVersion [{ prefixValue := "b/" }, { prefixValue := "a/" }] = Except.ok "a/" ∧
    strLt "a/" "b/" = true :=
  ⟨rfl, by decide⟩

/-- C6 (amended): getLatestVersion returns the `Prefix` of the last element
of the listing (the comparator-less sort leaves the array unchanged, and
reverse-then-index-0 selects the last element); when the listing is in
ascending lexicographic order — as the object-storage service returns it —
that element is the lexicographically greatest; an empty listing raises the
terminal `Version not found` error. -/
theorem getLatestVersion_last_entry (xs : List CommonPrefixEntry) (lc : CommonPrefixEntry)
    (hlast : xs.getLast? = some lc) :
    getLatestVersion [] = Except.error (JsError.error "Version not found") ∧
    getLatestVersion xs = Except.ok lc.prefixValue ∧
    (xs.Pairwise (fun a b => a.prefixValue ≤ b.prefixValue) →
      ∀ cp ∈ xs, cp.prefixValue ≤ lc.prefixValue) := by
  refine ⟨rfl, ?_, fun hs => pairwise_le_getLast xs lc hlast hs⟩
  rw [getLatestVersion_eq_getLast, hlast]

/-- C6 witness: the amended theorem applied to the two-element ascending
listing `[a/, b/]`, whose last element is `b/`. -/
theorem getLatestVersion_last_entry_witness :
    getLatestVersion [] = Except.error (JsError.error "Version not found") ∧
    getLatestVersion [{ prefixValue := "a/" }, { prefixValue := "b/" }] = Except.ok "b/" ∧
    (List.Pairwise (fun a b : CommonPrefixEntry => a.prefixValue ≤ b.prefixValue)
        ([{ prefixValue := "a/" }, { prefixValue := "b/" }] : List CommonPrefixEntry) →
      ∀ cp ∈ ([{ prefixValue := "a/" }, { prefixValue := "b/" }] : List CommonPrefixEntry),
        cp.prefixValue ≤ "b/") :=
  getLatestVersion_last_entry [{ prefixValue := "a/" }, { prefixValue := "b/" }]
    { prefixValue := "b/" } (by decide)

/-- C7: the printed share URL is missing the `&` separator between the
`stackName` and `templateURL` query parameters, and its final path segment
is the literal string `undefined` (the source interpolates
`this.templateKey`, a field never assigned) instead of the configured
destination template key; the URL therefore differs from the claimed
form. -/
theorem shareLink_missing_separator_and_key :
    endShareLink
        { destBucket := some "pub", destCodeKey := some "template.json",
          destTemplateKey := some "template.json", stackName := some "my-service" }
        "eu-west-1" =
      "https://console.aws.amazon.com/cloudformation/home#/stacks/new?stackName=my-servicetemplateURL=https://eu-west-1.amazonaws.com/pub/undefined" ∧
    endShareLink
        { destBucket := some "pub", destCodeKey := some "template.json",
          destTemplateKey := some "template.json", stackName := some "my-service" }
        "eu-west-1" ≠
      shareLinkSpec "my-service" "eu-west-1" "pub" "template.json" := by
  exact ⟨rfl, by decide⟩

/-- C8: elaboration is idempotent on an already-elaborated document: when
the deployment-bucket entry is absent, every rule is already applied
(required parameters have no `Default`, optional ones have the empty
`Default`), and no code-location field still references the deployment
bucket, the document state after another elaborateTemplate call is
unchanged. -/
theorem elaborate_idempotent (rules : List (String × String)) (db dk : Option String)
    (t : Template)
    (hsdb : lookupKey "ServerlessDeploymentBucket" t.Resources = none)
    (hrules : ∀ kr ∈ rules, ∀ p, lookupKey kr.1 (t.Parameters.getD []) = some p →
      (kr.2 = "required" → p.Default = none) ∧ (kr.2 = "optional" → p.Default = some ""))
    (hrw : ∀ nr ∈ t.Resources, nr.2.Type' = "AWS::Lambda::Function" →
      ∀ props, nr.2.Properties = some props → ∀ b, props.S3Bucket = some b →
        b.Ref ≠ some "ServerlessDeploymentBucket") :
    (elaborateTemplate rules db dk t).doc = t := by
  obtain ⟨res, params⟩ := t
  have hsdb' : lookupKey "ServerlessDeploymentBucket" res = none := hsdb
  cases params with
  | none =>
    rw [elaborateTemplate_none_doc, deleteKey_eq_self _ _ hsdb']
  | some ps =>
    have happ : (applyParamRules rules ps).1 = ps := by
      apply applyParamRules_fst_eq_self
      intro key rule p hm hp
      have h2 := hrules (key, rule) hm p hp
      by_cases hr : rule = "required"
      · subst hr
        unfold applyRule
        rw [if_pos rfl]
        have hd : p.Default = none := h2.1 rfl
        cases p
        simp_all
      · by_cases ho : rule = "optional"
        · subst ho
          unfold applyRule
          rw [if_neg (by decide), if_pos rfl]
          have hd : p.Default = some "" := h2.2 rfl
          cases p
          simp_all
        · unfold applyRule
          rw [if_neg hr, if_neg ho]
    calc (elaborateTemplate rules db dk ⟨res, some ps⟩).doc
        = { Resources := deleteKey "ServerlessDeploymentBucket" res
            Parameters := some (applyParamRules rules ps).1 } := rfl
      _ = ({ Resources := res, Parameters := some ps } : Template) := by
          rw [deleteKey_eq_self _ _ hsdb', happ]

/-- C8 witness: the theorem applied to a concrete already-elaborated
document (one rewritten compute function, rules `A` required and `B`
optional already applied, rule `C` naming an absent parameter). -/
theorem elaborate_idempotent_witness :
    (elaborateTemplate [("A", "required"), ("B", "optional"), ("C", "required")]
      (some "pub") (some "v1/code.zip") tElaborated).doc = tElaborated := by
  apply elaborate_idempotent
  · decide
  · intro kr hm p hp
    simp only [List.mem_cons, List.not_mem_nil, or_false] at hm
    rcases hm with rfl | rfl | rfl
    · have hp' : some ({ Default := none, extra := [] } : Parameter) = some p := hp
      obtain rfl := Option.some.inj hp'
      exact ⟨fun _ => rfl, fun h => absurd h (by decide)⟩
    · have hp' : some ({ Default := some "", extra := [] } : Parameter) = some p := hp
      obtain rfl := Option.some.inj hp'
      exact ⟨fun h => absurd h (by decide), fun _ => rfl⟩
    · cases hp
  · intro nr hm htype props hprops b hb
    simp only [tElaborated, List.mem_singleton] at hm
    obtain rfl := hm
    have hprops' : some (⟨some [("S3Bucket", "ServerlessDeploymentBucket")],
        some (BucketRef.str "pub"), some "v1/code.zip", []⟩ : ResourceProperties) =
        some props := hprops
    obtain rfl := Option.some.inj hprops'
    have hb' : some (BucketRef.str "pub") = some b := hb
    obtain rfl := Option.some.inj hb'
    exact fun hco => Option.noConfusion hco

/-- C9: the temporary `/tmp/code.zip` is removed when the upload resolves,
but when the upload rejects the removal at src/index.js:123 is skipped (no
try/finally) and the file remains on disk, contradicting the claim that it
is removed on every failure path. -/
theorem codeStage_tmpfile_leak_on_failure :
    codeStage true false =
      { tmpFileExists := true, err := some (JsError.error "upload rejected") } ∧
    codeStage true true = { tmpFileExists := false, err := none } ∧
    codeStage false true =
      { tmpFileExists := false, err := some (JsError.error "getObject rejected") } :=
  ⟨rfl, rfl, rfl⟩

/-- C10: for every combination of CLI options and share configuration, the
destination code key and the destination template key computed by init are
equal (both are `options.key || shareConfig.key`), so the template put
request and the code upload request always carry the same object key. -/
theorem destCodeKey_eq_destTemplateKey :
    ∀ (options custom : List (String × String)) (sourceKey service : String),
      (saveTemplateRequest (initDest options custom sourceKey service)).Key =
        (uploadCodeRequest (initDest options custom sourceKey service)).Key :=
  fun _ _ _ _ => rfl

end Share
